import Mathlib

/-!
Shallow embedding of the temporal storage-ledger and reporting engine of a
pallet-logistics back end.  Relational tables are embedded as Lean lists of
records; SQL filters become list filters; dates and timestamps are modelled
as integers (day numbers / ticks); ids are natural numbers.  The GraphQL
resolvers of the source are embedded as pure functions over these tables.
-/

namespace PalletBackend

/-- One row of the storage table: an immutable stock snapshot of a product
at a location.  storageId models the autoincrement primary key, createdAt
the row timestamp. -/
structure StorageRow where
  storageId : Nat
  locationId : Nat
  productId : Nat
  palletAmount : Int
  createdAt : Int
  deriving Repr, DecidableEq

/-- One row of the location table (only the fields the engine reads). -/
structure LocationRec where
  locationId : Nat
  locationType : String
  deriving Repr, DecidableEq

/-- One row of the locationPrice table: a price version for a location,
effective from validFrom. -/
structure LocationPrice where
  locationPriceId : Nat
  locationId : Nat
  price : Int
  validFrom : Int
  deriving Repr, DecidableEq

/-- One row of the order table (only the fields the engine reads). -/
structure OrderRec where
  orderId : Nat
  status : String
  deriving Repr, DecidableEq

/-- One row of the orderRow table: a line of an order. -/
structure OrderRow where
  orderId : Nat
  productId : Nat
  palletAmount : Int
  deriving Repr, DecidableEq

/-- One row of the product (pallet type) table. -/
structure ProductRec where
  productId : Nat
  deriving Repr, DecidableEq

/-- Maximum of a list of integers, as SQL MAX aggregates: none on the
empty list. -/
def listMaxI : List Int → Option Int
  | [] => none
  | x :: xs =>
    match listMaxI xs with
    | none => some x
    | some m => some (max x m)

theorem listMaxI_eq_none_iff (l : List Int) : listMaxI l = none ↔ l = [] := by
  cases l with
  | nil => simp [listMaxI]
  | cons x xs =>
    simp only [listMaxI]
    cases listMaxI xs <;> simp

theorem listMaxI_eq_some_iff (l : List Int) (m : Int) :
    listMaxI l = some m ↔ m ∈ l ∧ ∀ x ∈ l, x ≤ m := by
  induction l generalizing m with
  | nil => simp [listMaxI]
  | cons x xs ih =>
    cases hxs : listMaxI xs with
    | none =>
      have hnil : xs = [] := (listMaxI_eq_none_iff xs).mp hxs
      subst hnil
      simp only [listMaxI]
      constructor
      · intro h
        have hx : x = m := by simpa using h
        subst hx
        exact ⟨by simp, by intro y hy; simp at hy; omega⟩
      · rintro ⟨hmem, -⟩
        have hx : m = x := by simpa using hmem
        subst hx
        rfl
    | some m' =>
      simp only [listMaxI, hxs, Option.some.injEq]
      obtain ⟨hmem', hub'⟩ := (ih m').mp hxs
      constructor
      · rintro rfl
        refine ⟨?_, ?_⟩
        · rcases max_cases x m' with ⟨heq, -⟩ | ⟨heq, -⟩ <;> rw [heq]
          · exact List.mem_cons_self x xs
          · exact List.mem_cons_of_mem x hmem'
        · intro y hy
          rcases List.mem_cons.mp hy with rfl | hy'
          · exact le_max_left _ _
          · exact le_trans (hub' y hy') (le_max_right _ _)
      · rintro ⟨hmem, hub⟩
        have h1 : max x m' ≤ m :=
          max_le (hub x (List.mem_cons_self x xs)) (hub m' (List.mem_cons_of_mem x hmem'))
        have h2 : m ≤ max x m' := by
          rcases List.mem_cons.mp hmem with rfl | hmem2
          · exact le_max_left _ _
          · exact le_trans (hub' m hmem2) (le_max_right _ _)
        exact le_antisymm h1 h2

/-! ## Price Timeline: the report price query

Embeds the raw SQL of the report resolver: the UNION of
(a) rows whose validFrom equals the per-location maximum validFrom not
after startDate, and (b) rows whose validFrom lies inside the range,
both restricted to the requested location ids. -/

/-- The per-location maximum validFrom among versions not after d
(the correlated MAX subquery of the price query). -/
def maxValidFromLE (lps : List LocationPrice) (locId : Nat) (d : Int) : Option Int :=
  listMaxI ((lps.filter (fun lp => lp.locationId == locId && decide (lp.validFrom ≤ d))).map
    (fun lp => lp.validFrom))

/-- First branch of the UNION: price versions valid at the start date. -/
def pricesValidAtStart (lps : List LocationPrice) (locIds : List Nat) (startDate : Int) :
    List LocationPrice :=
  lps.filter (fun lp =>
    (maxValidFromLE lps lp.locationId startDate == some lp.validFrom) &&
      decide (lp.locationId ∈ locIds))

/-- Second branch of the UNION: price changes within the date range. -/
def pricesInRange (lps : List LocationPrice) (locIds : List Nat) (startDate endDate : Int) :
    List LocationPrice :=
  lps.filter (fun lp =>
    decide (startDate ≤ lp.validFrom) && decide (lp.validFrom ≤ endDate) &&
      decide (lp.locationId ∈ locIds))

/-- The price query of the report resolver: UNION of the two branches
(SQL UNION removes duplicate result rows, hence the dedup). -/
def priceQuery (lps : List LocationPrice) (locIds : List Nat) (startDate endDate : Int) :
    List LocationPrice :=
  (pricesValidAtStart lps locIds startDate ++ pricesInRange lps locIds startDate endDate).dedup

/-- Spec-side description: lp is the price version of its location with the
greatest validFrom not after d (the version effective at d). -/
def EffectiveAt (lps : List LocationPrice) (locId : Nat) (d : Int) (lp : LocationPrice) : Prop :=
  lp ∈ lps ∧ lp.locationId = locId ∧ lp.validFrom ≤ d ∧
    ∀ lp2 ∈ lps, lp2.locationId = locId → lp2.validFrom ≤ d → lp2.validFrom ≤ lp.validFrom

theorem mem_pricesValidAtStart_iff (lps : List LocationPrice) (locIds : List Nat)
    (startDate : Int) (lp : LocationPrice) :
    lp ∈ pricesValidAtStart lps locIds startDate ↔
      lp.locationId ∈ locIds ∧ EffectiveAt lps lp.locationId startDate lp := by
  unfold pricesValidAtStart EffectiveAt
  rw [List.mem_filter]
  simp only [Bool.and_eq_true, beq_iff_eq, decide_eq_true_eq]
  constructor
  · rintro ⟨hmem, hmax, hin⟩
    rw [maxValidFromLE, listMaxI_eq_some_iff] at hmax
    obtain ⟨hvmem, hub⟩ := hmax
    simp only [List.mem_map, List.mem_filter, Bool.and_eq_true, beq_iff_eq,
      decide_eq_true_eq] at hvmem hub
    obtain ⟨lp', ⟨-, -, hle'⟩, hveq⟩ := hvmem
    refine ⟨hin, hmem, trivial, by omega, ?_⟩
    intro lp2 h2mem h2loc h2le
    exact hub lp2.validFrom ⟨lp2, ⟨h2mem, h2loc, h2le⟩, rfl⟩
  · rintro ⟨hin, hmem, -, hle, hub⟩
    refine ⟨hmem, ?_, hin⟩
    rw [maxValidFromLE, listMaxI_eq_some_iff]
    constructor
    · simp only [List.mem_map, List.mem_filter, Bool.and_eq_true, beq_iff_eq,
        decide_eq_true_eq]
      exact ⟨lp, ⟨hmem, rfl, hle⟩, rfl⟩
    · intro x hx
      simp only [List.mem_map, List.mem_filter, Bool.and_eq_true, beq_iff_eq,
        decide_eq_true_eq] at hx
      obtain ⟨lp2, ⟨h2mem, h2loc, h2le⟩, rfl⟩ := hx
      exact hub lp2 h2mem h2loc h2le

/-- C1: the report price query returns exactly the union of (a) the
version(s) effective at startDate per requested location and (b) every
version of a requested location with validFrom inside the range; a version
effective before the window but active during it is included via (a). -/
theorem priceQuery_mem_iff (lps : List LocationPrice) (locIds : List Nat)
    (startDate endDate : Int) (lp : LocationPrice) :
    lp ∈ priceQuery lps locIds startDate endDate ↔
      lp.locationId ∈ locIds ∧
        (EffectiveAt lps lp.locationId startDate lp ∨
          (lp ∈ lps ∧ startDate ≤ lp.validFrom ∧ lp.validFrom ≤ endDate)) := by
  unfold priceQuery
  rw [List.mem_dedup, List.mem_append, mem_pricesValidAtStart_iff]
  unfold pricesInRange
  rw [List.mem_filter]
  simp only [Bool.and_eq_true, decide_eq_true_eq]
  constructor
  · rintro (⟨hin, heff⟩ | ⟨hmem, ⟨hge, hle⟩, hin⟩)
    · exact ⟨hin, Or.inl heff⟩
    · exact ⟨hin, Or.inr ⟨hmem, hge, hle⟩⟩
  · rintro ⟨hin, heff | ⟨hmem, hge, hle⟩⟩
    · exact Or.inl ⟨hin, heff⟩
    · exact Or.inr ⟨hmem, ⟨hge, hle⟩, hin⟩

/-! ## Availability Calculator

Embeds the availableStorages resolver: latest snapshot per product across
all processing-facility locations, minus the open-order reservations of
that product.  The ORDER BY productId of the source only affects result
order and is not modelled; every claim below is order-insensitive or
restricts the result to a single product. -/

/-- Whether a location id belongs to a processing facility
(locationType Käsittelylaitos). -/
def isFacility (locations : List LocationRec) (locId : Nat) : Bool :=
  locations.any (fun l => l.locationId == locId && l.locationType == "Käsittelylaitos")

/-- Storage rows held at processing facilities (the inner join with the
location table filtered on locationType). -/
def facilityRows (locations : List LocationRec) (storages : List StorageRow) :
    List StorageRow :=
  storages.filter (fun s => isFacility locations s.locationId)

/-- Per-product maximum createdAt across all facility rows (the grouped
MAX subquery of availableStorages). -/
def facilityMaxCreatedAt (locations : List LocationRec) (storages : List StorageRow)
    (p : Nat) : Option Int :=
  listMaxI (((facilityRows locations storages).filter (fun s => s.productId == p)).map
    (fun s => s.createdAt))

/-- The latest-snapshot-per-product query of availableStorages: facility
rows whose (productId, createdAt) pair matches a per-product maximum. -/
def latestFacilityStorages (locations : List LocationRec) (storages : List StorageRow) :
    List StorageRow :=
  (facilityRows locations storages).filter
    (fun s => facilityMaxCreatedAt locations storages s.productId == some s.createdAt)

/-- Order rows whose parent order has status Avattu (open). -/
def openOrderRows (orders : List OrderRec) (orderRows : List OrderRow) : List OrderRow :=
  orderRows.filter (fun r =>
    orders.any (fun o => o.orderId == r.orderId && o.status == "Avattu"))

/-- Sum of palletAmount over open order rows of one product (the filter
and reduce of the resolver). -/
def reservedQuantity (orders : List OrderRec) (orderRows : List OrderRow) (p : Nat) : Int :=
  ((openOrderRows orders orderRows).filter (fun r => r.productId == p)).foldl
    (fun total r => total + r.palletAmount) 0

/-- The availableStorages resolver: each latest facility snapshot with its
palletAmount reduced by the open-order reservations of its product. -/
def availableStorages (locations : List LocationRec) (storages : List StorageRow)
    (orders : List OrderRec) (orderRows : List OrderRow) : List StorageRow :=
  (latestFacilityStorages locations storages).map
    (fun s => { s with palletAmount := s.palletAmount - reservedQuantity orders orderRows s.productId })

/-- Spec-side description: s is a facility snapshot of product p with the
greatest createdAt among all facility snapshots of p. -/
def IsLatestFacilitySnapshot (locations : List LocationRec) (storages : List StorageRow)
    (p : Nat) (s : StorageRow) : Prop :=
  s ∈ facilityRows locations storages ∧ s.productId = p ∧
    ∀ s2 ∈ facilityRows locations storages, s2.productId = p → s2.createdAt ≤ s.createdAt

theorem filter_eq_singleton_of_nodup {α : Type} {l : List α} {p : α → Bool} {a : α}
    (hnd : l.Nodup) (ha : a ∈ l) (hpa : p a = true)
    (huniq : ∀ b ∈ l, p b = true → b = a) : l.filter p = [a] := by
  induction l with
  | nil => cases ha
  | cons x xs ih =>
    obtain ⟨hxmem, hnd'⟩ := List.nodup_cons.mp hnd
    rcases List.mem_cons.mp ha with rfl | hxs
    · rw [List.filter_cons_of_pos hpa]
      have hnil : xs.filter p = [] := by
        rw [List.filter_eq_nil_iff]
        intro b hb hpb
        exact hxmem ((huniq b (List.mem_cons_of_mem _ hb) hpb) ▸ hb)
      rw [hnil]
    · have hxa : x ≠ a := fun h => hxmem (h ▸ hxs)
      have hpx : ¬ p x = true := fun h => hxa (huniq x (List.mem_cons_self x xs) h)
      rw [List.filter_cons_of_neg (by simpa using hpx)]
      exact ih hnd' hxs (fun b hb hpb => huniq b (List.mem_cons_of_mem _ hb) hpb)

theorem find?_eq_some_of_unique {α : Type} {l : List α} {p : α → Bool} {a : α}
    (ha : a ∈ l) (hpa : p a = true)
    (huniq : ∀ b ∈ l, p b = true → b = a) : l.find? p = some a := by
  induction l with
  | nil => cases ha
  | cons x xs ih =>
    by_cases hx : p x = true
    · have hxa : x = a := huniq x (List.mem_cons_self x xs) hx
      subst hxa
      simp [List.find?_cons_of_pos, hx]
    · rw [List.find?_cons_of_neg _ (by simpa using hx)]
      rcases List.mem_cons.mp ha with rfl | hxs
      · exact absurd hpa hx
      · exact ih hxs (fun b hb hpb => huniq b (List.mem_cons_of_mem x hb) hpb)

/-- Shared core of the latest-per-product reasoning: under distinct
createdAt per product and a duplicate-free table, the latest-per-product
query restricted to product p is exactly the latest facility snapshot. -/
theorem latestFacilityStorages_filter_eq (locations : List LocationRec)
    (storages : List StorageRow) (p : Nat)
    (hnd : storages.Nodup)
    (hdistinct : ∀ s1 ∈ storages, ∀ s2 ∈ storages, s1.productId = s2.productId →
      s1.createdAt = s2.createdAt → s1 = s2)
    (s : StorageRow) (hlatest : IsLatestFacilitySnapshot locations storages p s) :
    (latestFacilityStorages locations storages).filter (fun r => r.productId == p) = [s] := by
  obtain ⟨hsmem, hsprod, hub⟩ := hlatest
  have hsub : ∀ r, r ∈ facilityRows locations storages → r ∈ storages := by
    intro r hr
    exact (List.mem_filter.mp hr).1
  have hmax : facilityMaxCreatedAt locations storages p = some s.createdAt := by
    rw [facilityMaxCreatedAt, listMaxI_eq_some_iff]
    constructor
    · simp only [List.mem_map, List.mem_filter, beq_iff_eq]
      exact ⟨s, ⟨hsmem, hsprod⟩, rfl⟩
    · intro x hx
      simp only [List.mem_map, List.mem_filter, beq_iff_eq] at hx
      obtain ⟨r, ⟨hrmem, hrprod⟩, rfl⟩ := hx
      exact hub r hrmem hrprod
  apply filter_eq_singleton_of_nodup
  · exact (hnd.filter _).filter _
  · rw [latestFacilityStorages, List.mem_filter]
    refine ⟨hsmem, ?_⟩
    simp [hsprod, hmax]
  · simp [hsprod]
  · intro b hb hbp
    rw [latestFacilityStorages, List.mem_filter] at hb
    obtain ⟨hbmem, hbmax⟩ := hb
    simp only [beq_iff_eq] at hbp hbmax
    rw [hbp, hmax, Option.some.injEq] at hbmax
    exact hdistinct b (hsub b hbmem) s (hsub s hsmem) (by rw [hbp, hsprod]) hbmax.symm

theorem map_adjust_filter_productId (g : StorageRow → StorageRow)
    (hg : ∀ s, (g s).productId = s.productId) (p : Nat) :
    ∀ l : List StorageRow,
      (l.map g).filter (fun r => r.productId == p) =
        (l.filter (fun r => r.productId == p)).map g
  | [] => by simp
  | x :: xs => by
    by_cases hx : x.productId = p
    · rw [List.map_cons, List.filter_cons_of_pos (by simp [hg, hx]),
        List.filter_cons_of_pos (by simp [hx]), List.map_cons,
        map_adjust_filter_productId g hg p xs]
    · rw [List.map_cons, List.filter_cons_of_neg (by simp [hg, hx]),
        List.filter_cons_of_neg (by simp [hx]),
        map_adjust_filter_productId g hg p xs]

/-- C2: for a product p held at a processing facility, availableStorages
returns exactly one record for p, whose quantity is the palletAmount of
the latest facility snapshot of p minus the open-order reservations of p,
reported as-is (no clamping, the subtraction may be negative). -/
theorem availableStorages_spec (locations : List LocationRec) (storages : List StorageRow)
    (orders : List OrderRec) (orderRows : List OrderRow) (p : Nat)
    (hnd : storages.Nodup)
    (hdistinct : ∀ s1 ∈ storages, ∀ s2 ∈ storages, s1.productId = s2.productId →
      s1.createdAt = s2.createdAt → s1 = s2)
    (s : StorageRow) (hlatest : IsLatestFacilitySnapshot locations storages p s) :
    (availableStorages locations storages orders orderRows).filter
        (fun r => r.productId == p) =
      [{ s with palletAmount := s.palletAmount - reservedQuantity orders orderRows p }] := by
  rw [availableStorages,
    map_adjust_filter_productId
      (fun t => { t with palletAmount := t.palletAmount - reservedQuantity orders orderRows t.productId })
      (fun t => rfl) p,
    latestFacilityStorages_filter_eq locations storages p hnd hdistinct s hlatest,
    List.map_cons, List.map_nil]
  have hp : s.productId = p := hlatest.2.1
  rw [hp]

/-- C2 witness: facility snapshot of quantity 20 for product 1, open
reservations totalling 25, yields available quantity -5 as-is. -/
theorem availableStorages_spec_witness :
    (availableStorages [⟨1, "Käsittelylaitos"⟩] [⟨1, 1, 1, 20, 0⟩]
        [⟨1, "Avattu"⟩] [⟨1, 1, 25⟩]).filter (fun r => r.productId == 1) =
      [⟨1, 1, 1, 20 - 25, 0⟩] :=
  availableStorages_spec [⟨1, "Käsittelylaitos"⟩] [⟨1, 1, 1, 20, 0⟩]
    [⟨1, "Avattu"⟩] [⟨1, 1, 25⟩] 1 (by decide)
    (by decide) ⟨1, 1, 1, 20, 0⟩
    (by unfold IsLatestFacilitySnapshot; refine ⟨by decide, rfl, ?_⟩; decide)

/-- C8 counterexample: two snapshots of product 1 at the same facility
share createdAt 5; the latest-per-product query keeps both rows (the
grouped-MAX IN filter has no sequence-id tie-break), so it does not return
exactly one row per product. -/
theorem latestPerProduct_tie_counterexample :
    ((latestFacilityStorages [⟨1, "Käsittelylaitos"⟩]
        [⟨1, 1, 1, 10, 5⟩, ⟨2, 1, 1, 7, 5⟩]).filter (fun r => r.productId == 1)).length = 2 := by
  decide

/-- C8 amended: the latest-per-product query returns exactly one row per
product that has a qualifying facility snapshot, provided no two snapshots
of the same product share a createdAt timestamp; on a timestamp tie every
tied row is returned (there is no sequence-id tie-break). -/
theorem latestPerProduct_unique (locations : List LocationRec) (storages : List StorageRow)
    (p : Nat) (hnd : storages.Nodup)
    (hdistinct : ∀ s1 ∈ storages, ∀ s2 ∈ storages, s1.productId = s2.productId →
      s1.createdAt = s2.createdAt → s1 = s2)
    (s : StorageRow) (hlatest : IsLatestFacilitySnapshot locations storages p s) :
    (latestFacilityStorages locations storages).filter (fun r => r.productId == p) = [s] :=
  latestFacilityStorages_filter_eq locations storages p hnd hdistinct s hlatest

/-- C8 amended witness: with distinct timestamps the query returns exactly
the single latest snapshot of product 1. -/
theorem latestPerProduct_unique_witness :
    (latestFacilityStorages [⟨1, "Käsittelylaitos"⟩]
        [⟨1, 1, 1, 10, 5⟩, ⟨2, 1, 1, 7, 6⟩]).filter (fun r => r.productId == 1) =
      [⟨2, 1, 1, 7, 6⟩] :=
  latestPerProduct_unique [⟨1, "Käsittelylaitos"⟩] [⟨1, 1, 1, 10, 5⟩, ⟨2, 1, 1, 7, 6⟩]
    1 (by decide) (by decide) ⟨2, 1, 1, 7, 6⟩
    (by unfold IsLatestFacilitySnapshot; refine ⟨by decide, rfl, ?_⟩; decide)

/-! ## Storage mutations: collectPallets, addPallets

Embeds the two snapshot-writing mutations.  Both first run the
current-storages query: the grouped-MAX subquery is restricted to the
input location, while the outer scan over the storage table is not
(embedded faithfully, including this asymmetry).  collectPallets builds
rows with palletAmount current + input (current dropped when it is 0 or
absent, mirroring the JavaScript truthiness test); addPallets builds rows
with the caller-supplied palletAmount unchanged.  bulkCreate appends the
built rows to the table. -/

/-- Input line of a storage mutation. -/
structure StorageRowInput where
  productId : Nat
  palletAmount : Int
  deriving Repr, DecidableEq

/-- Input of a storage mutation. -/
structure StorageInput where
  locationId : Nat
  storageRows : List StorageRowInput
  deriving Repr, DecidableEq

/-- Row object built by a mutation before insertion (no id or timestamp
yet, as in the source). -/
structure NewStorageRow where
  locationId : Nat
  productId : Nat
  palletAmount : Int
  deriving Repr, DecidableEq

/-- Per-product maximum createdAt among the rows of one location (the
grouped MAX subquery of the mutations). -/
def locationMaxCreatedAt (storages : List StorageRow) (locId p : Nat) : Option Int :=
  listMaxI ((storages.filter (fun s => s.locationId == locId && s.productId == p)).map
    (fun s => s.createdAt))

/-- The current-storages query of the mutations: rows of the whole table
whose (productId, createdAt) matches a per-product maximum of the given
location. -/
def currentStorages (storages : List StorageRow) (locId : Nat) : List StorageRow :=
  storages.filter (fun s => locationMaxCreatedAt storages locId s.productId == some s.createdAt)

/-- One output row of collectPallets: current + input when a current row
with nonzero palletAmount is found, the input alone otherwise. -/
def collectRow (storages : List StorageRow) (locId : Nat) (row : StorageRowInput) :
    NewStorageRow :=
  match (currentStorages storages locId).find? (fun s => s.productId == row.productId) with
  | some st =>
    { locationId := locId, productId := row.productId,
      palletAmount :=
        if st.palletAmount ≠ 0 then st.palletAmount + row.palletAmount else row.palletAmount }
  | none =>
    { locationId := locId, productId := row.productId, palletAmount := row.palletAmount }

/-- Rows built by collectPallets. -/
def collectPalletsRows (storages : List StorageRow) (input : StorageInput) :
    List NewStorageRow :=
  input.storageRows.map (collectRow storages input.locationId)

/-- Rows built by addPallets: the caller-supplied palletAmount unchanged
(the source also runs the current-storages query here but never uses the
looked-up row when building the output). -/
def addPalletsRows (_storages : List StorageRow) (input : StorageInput) :
    List NewStorageRow :=
  input.storageRows.map (fun row =>
    { locationId := input.locationId, productId := row.productId,
      palletAmount := row.palletAmount })

/-- bulkCreate: append the built rows to the table with autoincrement ids
and the shared insertion timestamp. -/
def appendRows (storages : List StorageRow) (newRows : List NewStorageRow) (now : Int) :
    List StorageRow :=
  storages ++ newRows.enum.map (fun ir =>
    ⟨storages.length + ir.1, ir.2.locationId, ir.2.productId, ir.2.palletAmount, now⟩)

/-- The collectPallets mutation as a store transformer. -/
def collectPallets (storages : List StorageRow) (input : StorageInput) (now : Int) :
    List StorageRow :=
  appendRows storages (collectPalletsRows storages input) now

/-- The addPallets mutation as a store transformer. -/
def addPallets (storages : List StorageRow) (input : StorageInput) (now : Int) :
    List StorageRow :=
  appendRows storages (addPalletsRows storages input) now

/-- Spec-side description: s is the snapshot of product p at location
locId with the greatest createdAt (the current quantity holder). -/
def IsLatestAtLocation (storages : List StorageRow) (locId p : Nat) (s : StorageRow) : Prop :=
  s ∈ storages ∧ s.locationId = locId ∧ s.productId = p ∧
    ∀ s2 ∈ storages, s2.locationId = locId → s2.productId = p → s2.createdAt ≤ s.createdAt

/-- C3 counterexample: with a current quantity of 10 for product 1 at
location 1 and an input of 5, addPallets appends a row storing 5 — the
caller-supplied value — not the current quantity plus the input (15). -/
theorem addPallets_counterexample :
    (addPalletsRows [⟨0, 1, 1, 10, 0⟩] ⟨1, [⟨1, 5⟩]⟩).map (fun r => r.palletAmount) = [5] ∧
      (5 : Int) ≠ 10 + 5 := by
  constructor
  · decide
  · decide

/-- C3 amended: the roles are the reverse of the claim — addPallets
appends rows whose stored quantity is the caller-supplied palletAmount
unchanged, while collectPallets appends rows whose stored quantity is the
current latest quantity for the (location, product) key (or 0 when no
snapshot exists) plus the input. -/
theorem addPallets_sets_collectPallets_adds (storages : List StorageRow)
    (input : StorageInput)
    (hdistinct : ∀ s1 ∈ storages, ∀ s2 ∈ storages, s1.productId = s2.productId →
      s1.createdAt = s2.createdAt → s1 = s2) :
    (addPalletsRows storages input = input.storageRows.map (fun row =>
      ⟨input.locationId, row.productId, row.palletAmount⟩)) ∧
    (∀ row : StorageRowInput, ∀ s : StorageRow,
      IsLatestAtLocation storages input.locationId row.productId s →
      collectRow storages input.locationId row =
        ⟨input.locationId, row.productId, s.palletAmount + row.palletAmount⟩) ∧
    (∀ row : StorageRowInput,
      (∀ s ∈ storages, ¬(s.locationId = input.locationId ∧ s.productId = row.productId)) →
      collectRow storages input.locationId row =
        ⟨input.locationId, row.productId, 0 + row.palletAmount⟩) := by
  refine ⟨rfl, ?_, ?_⟩
  · intro row s hlatest
    obtain ⟨hsmem, hsloc, hsprod, hub⟩ := hlatest
    have hmax : locationMaxCreatedAt storages input.locationId row.productId =
        some s.createdAt := by
      rw [locationMaxCreatedAt, listMaxI_eq_some_iff]
      constructor
      · simp only [List.mem_map, List.mem_filter, Bool.and_eq_true, beq_iff_eq]
        exact ⟨s, ⟨hsmem, hsloc, hsprod⟩, rfl⟩
      · intro x hx
        simp only [List.mem_map, List.mem_filter, Bool.and_eq_true, beq_iff_eq] at hx
        obtain ⟨r, ⟨hrmem, hrloc, hrprod⟩, rfl⟩ := hx
        exact hub r hrmem hrloc hrprod
    have hfind : (currentStorages storages input.locationId).find?
        (fun t => t.productId == row.productId) = some s := by
      apply find?_eq_some_of_unique
      · rw [currentStorages, List.mem_filter]
        refine ⟨hsmem, ?_⟩
        simp [hsprod, hmax]
      · simp [hsprod]
      · intro b hb hbp
        rw [currentStorages, List.mem_filter] at hb
        obtain ⟨hbmem, hbmax⟩ := hb
        simp only [beq_iff_eq] at hbp hbmax
        rw [hbp, hmax, Option.some.injEq] at hbmax
        exact hdistinct b hbmem s hsmem (by rw [hbp, hsprod]) hbmax.symm
    rw [collectRow, hfind]
    by_cases hz : s.palletAmount = 0
    · simp [hz]
    · simp [hz]
  · intro row hnone
    have hmax : locationMaxCreatedAt storages input.locationId row.productId = none := by
      rw [locationMaxCreatedAt, listMaxI_eq_none_iff, List.map_eq_nil_iff,
        List.filter_eq_nil_iff]
      intro s hs hcond
      simp only [Bool.and_eq_true, beq_iff_eq] at hcond
      exact hnone s hs hcond
    have hfind : (currentStorages storages input.locationId).find?
        (fun t => t.productId == row.productId) = none := by
      rw [List.find?_eq_none]
      intro b hb hbp
      rw [currentStorages, List.mem_filter] at hb
      obtain ⟨-, hbmax⟩ := hb
      simp only [beq_iff_eq] at hbp
      rw [hbp, hmax] at hbmax
      simp at hbmax
    rw [collectRow, hfind]
    simp

/-- C3 amended witness: with current quantity 10 for product 1 at
location 1, collectPallets stores 10 + 5 while addPallets stores the
input 5 unchanged. -/
theorem addPallets_sets_collectPallets_adds_witness :
    (addPalletsRows [⟨0, 1, 1, 10, 0⟩] ⟨1, [⟨1, 5⟩]⟩ = [⟨1, 1, 5⟩]) ∧
      collectRow [⟨0, 1, 1, 10, 0⟩] 1 ⟨1, 5⟩ = ⟨1, 1, 10 + 5⟩ :=
  ⟨(addPallets_sets_collectPallets_adds [⟨0, 1, 1, 10, 0⟩] ⟨1, [⟨1, 5⟩]⟩ (by decide)).1,
    (addPallets_sets_collectPallets_adds [⟨0, 1, 1, 10, 0⟩] ⟨1, [⟨1, 5⟩]⟩ (by decide)).2.1
      ⟨1, 5⟩ ⟨0, 1, 1, 10, 0⟩
      (by unfold IsLatestAtLocation; refine ⟨by decide, rfl, rfl, ?_⟩; decide)⟩

/-- C9: both snapshot mutations are append-only: every existing row of
the storage table survives unchanged at its position, and the new table
only extends the old one (so the full quantity history remains
reconstructable). -/
theorem mutations_append_only (storages : List StorageRow) (input : StorageInput) (now : Int) :
    (addPallets storages input now).take storages.length = storages ∧
      (collectPallets storages input now).take storages.length = storages ∧
      storages.length ≤ (addPallets storages input now).length ∧
      storages.length ≤ (collectPallets storages input now).length := by
  refine ⟨?_, ?_, ?_, ?_⟩ <;>
    simp [addPallets, collectPallets, appendRows, List.take_left]

/-! ## Daily Report Builder

Embeds the report resolver and its reportUtils helpers.  Calendar dates
are day numbers; the source loop steps one day at a time from startDate
to endDate inclusive, embedded with the iteration count as fuel.
createProductReports of the source fills every product report with the
constant placeholder values palletAmount 5 and cost 25 and reads neither
snapshots nor prices; the embedding mirrors this, keeping the unused
location and date parameters. -/

/-- Per-product line of a daily report. -/
structure ProductReport where
  product : ProductRec
  palletAmount : Int
  cost : Int
  deriving Repr, DecidableEq

/-- One day of a location report. -/
structure DailyReport where
  date : Int
  productReports : List ProductReport
  totalDailyPallets : Int
  totalDailyCost : Int
  deriving Repr, DecidableEq

/-- Report for one location over the range. -/
structure LocationReport where
  locationId : Nat
  dailyReports : List DailyReport
  totalCost : Int
  deriving Repr, DecidableEq

/-- createProductReports of the source: one report per product, with the
placeholder constants (the location and date arguments are unused, as in
the source). -/
def createProductReports (_locId : Nat) (_date : Int) (products : List ProductRec) :
    List ProductReport :=
  products.map (fun p => { product := p, palletAmount := 5, cost := 25 })

/-- One iteration of the day loop of createDailyReports. -/
def mkDailyReport (locId : Nat) (d : Int) (products : List ProductRec) : DailyReport :=
  let productReports := createProductReports locId d products
  { date := d
    productReports := productReports
    totalDailyPallets := productReports.foldl (fun total r => total + r.palletAmount) 0
    totalDailyCost := productReports.foldl (fun total r => total + r.cost) 0 }

/-- The day loop, with the remaining iteration count as fuel. -/
def createDailyReportsAux (locId : Nat) (products : List ProductRec) :
    Nat → Int → List DailyReport
  | 0, _ => []
  | n + 1, d => mkDailyReport locId d products :: createDailyReportsAux locId products n (d + 1)

/-- createDailyReports of the source: one report per day, d running from
startDate while d is at most endDate, stepping one day. -/
def createDailyReports (locId : Nat) (products : List ProductRec)
    (startDate endDate : Int) : List DailyReport :=
  createDailyReportsAux locId products (endDate + 1 - startDate).toNat startDate

/-- The per-location part of the report resolver: daily reports plus the
location totalCost folded over them. -/
def buildLocationReport (locId : Nat) (products : List ProductRec)
    (startDate endDate : Int) : LocationReport :=
  let dailyReports := createDailyReports locId products startDate endDate
  { locationId := locId
    dailyReports := dailyReports
    totalCost := dailyReports.foldl (fun total r => total + r.totalDailyCost) 0 }

/-- C4 counterexample: with startDate 5 after endDate 3, the report
resolver does not raise any validation error: the day loop runs zero
times and a LocationReport with no daily entries and totalCost 0 is
returned (the embedding is a total function because the source has no
error path for an empty range). -/
theorem report_empty_range_counterexample :
    buildLocationReport 1 [⟨1⟩] 5 3 = ⟨1, [], 0⟩ := by
  decide

/-- C4 amended: for every location and every range with
startDate > endDate, buildReport returns a LocationReport with an empty
dailyReports list and totalCost 0, raising no error. -/
theorem report_empty_range_amended (locId : Nat) (products : List ProductRec)
    (startDate endDate : Int) (h : endDate < startDate) :
    buildLocationReport locId products startDate endDate = ⟨locId, [], 0⟩ := by
  have hfuel : (endDate + 1 - startDate).toNat = 0 := by omega
  rw [buildLocationReport, createDailyReports, hfuel]
  rfl

/-- C4 amended witness. -/
theorem report_empty_range_amended_witness :
    buildLocationReport 2 [⟨1⟩, ⟨2⟩] 10 7 = ⟨2, [], 0⟩ :=
  report_empty_range_amended 2 [⟨1⟩, ⟨2⟩] 10 7 (by decide)

theorem createDailyReportsAux_dates (locId : Nat) (products : List ProductRec) :
    ∀ (n : Nat) (d : Int),
      (createDailyReportsAux locId products n d).map (fun r => r.date) =
        (List.range n).map (fun i : Nat => d + (i : Int))
  | 0, _ => by simp [createDailyReportsAux]
  | n + 1, d => by
    rw [createDailyReportsAux, List.map_cons,
      createDailyReportsAux_dates locId products n (d + 1),
      List.range_succ_eq_map, List.map_cons, List.map_map]
    refine congrArg₂ _ (by simp [mkDailyReport]) ?_
    apply List.map_congr_left
    intro i _
    simp only [Function.comp_apply]
    push_cast
    ring

/-- C5: the report contains exactly one daily entry per calendar day of
the inclusive range, in strictly ascending day order: the dates of
createDailyReports are startDate, startDate + 1, ..., endDate (and with
startDate equal to endDate exactly one entry results).  The equation also
covers the degenerate empty range, where the list is empty. -/
theorem createDailyReports_dates (locId : Nat) (products : List ProductRec)
    (startDate endDate : Int) :
    (createDailyReports locId products startDate endDate).map (fun r => r.date) =
      (List.range (endDate + 1 - startDate).toNat).map (fun i : Nat => startDate + (i : Int)) :=
  createDailyReportsAux_dates locId products (endDate + 1 - startDate).toNat startDate

theorem foldl_add_eq_sum {α : Type} (f : α → Int) :
    ∀ (l : List α) (init : Int),
      l.foldl (fun total r => total + f r) init = init + (l.map f).sum
  | [], init => by simp
  | x :: xs, init => by
    rw [List.foldl_cons, foldl_add_eq_sum f xs (init + f x), List.map_cons, List.sum_cons]
    ring

/-- C6: the totalCost of a location report equals the sum of
totalDailyCost over its daily entries. -/
theorem totalCost_eq_sum_dailyCosts (locId : Nat) (products : List ProductRec)
    (startDate endDate : Int) :
    (buildLocationReport locId products startDate endDate).totalCost =
      ((buildLocationReport locId products startDate endDate).dailyReports.map
        (fun r => r.totalDailyCost)).sum := by
  rw [buildLocationReport]
  simp only
  rw [foldl_add_eq_sum]
  ring

/-- C7: the spec scenario requires quantity 60 on the first report day
(from the snapshot history of product 1), but createProductReports reads
no snapshots at all and returns the placeholder constants: over the
31-day range every daily entry carries palletAmount 5 and cost 25 for the
single product, and 5 is not the required 60. -/
theorem productReports_placeholder_at_scenario :
    ((createDailyReports 1 [⟨1⟩] 0 30).map (fun r => r.productReports) =
      (List.range 31).map (fun _ => [⟨⟨1⟩, 5, 25⟩])) ∧ (5 : Int) ≠ 60 := by
  constructor
  · decide
  · decide

/-! ## addStorageToLocation

Embeds the addStorageToLocation mutation: after checking that the
location and the product exist, it refuses to create a second storage row
for a (location, product) pair that already has one; only when no row
exists is an initial row created.  The result pairs the raised error or
created row with the resulting table, so that leaving the table untouched
on the error paths is part of the statement. -/

/-- The addStorageToLocation mutation.  The error strings are the inner
messages thrown by the resolver before its generic catch-all wrapper. -/
def addStorageToLocation (locations : List LocationRec) (products : List ProductRec)
    (storages : List StorageRow) (locId productId : Nat) (palletAmount : Int)
    (now : Int) : Except String StorageRow × List StorageRow :=
  if !(locations.any (fun l => l.locationId == locId)) ||
      !(products.any (fun p => p.productId == productId)) then
    (Except.error "Location or Product not found", storages)
  else if storages.any (fun s => s.locationId == locId && s.productId == productId) then
    (Except.error "Product already exists for this Location", storages)
  else
    let newStorage : StorageRow := ⟨storages.length, locId, productId, palletAmount, now⟩
    (Except.ok newStorage, storages ++ [newStorage])

/-- C10: when the referenced location and product exist, the mutation
raises the product-already-exists error and leaves the storage table
unchanged whenever some row for the (location, product) pair exists, and
creates exactly one initial row when none does. -/
theorem addStorageToLocation_guard (locations : List LocationRec)
    (products : List ProductRec) (storages : List StorageRow)
    (locId productId : Nat) (palletAmount : Int) (now : Int)
    (hloc : ∃ l ∈ locations, l.locationId = locId)
    (hprod : ∃ p ∈ products, p.productId = productId) :
    ((∃ s ∈ storages, s.locationId = locId ∧ s.productId = productId) →
      addStorageToLocation locations products storages locId productId palletAmount now =
        (Except.error "Product already exists for this Location", storages)) ∧
    ((¬ ∃ s ∈ storages, s.locationId = locId ∧ s.productId = productId) →
      addStorageToLocation locations products storages locId productId palletAmount now =
        (Except.ok ⟨storages.length, locId, productId, palletAmount, now⟩,
          storages ++ [⟨storages.length, locId, productId, palletAmount, now⟩])) := by
  have hlocb : locations.any (fun l => l.locationId == locId) = true := by
    rw [List.any_eq_true]
    obtain ⟨l, hl, hleq⟩ := hloc
    exact ⟨l, hl, by simp [hleq]⟩
  have hprodb : products.any (fun p => p.productId == productId) = true := by
    rw [List.any_eq_true]
    obtain ⟨p, hp, hpeq⟩ := hprod
    exact ⟨p, hp, by simp [hpeq]⟩
  constructor
  · intro hex
    have hexb : storages.any (fun s => s.locationId == locId && s.productId == productId)
        = true := by
      rw [List.any_eq_true]
      obtain ⟨s, hs, hseq⟩ := hex
      exact ⟨s, hs, by simp [hseq.1, hseq.2]⟩
    rw [addStorageToLocation]
    simp [hlocb, hprodb, hexb]
  · intro hnone
    have hexb : storages.any (fun s => s.locationId == locId && s.productId == productId)
        = false := by
      rw [List.any_eq_false]
      intro s hs
      simp only [Bool.and_eq_true, beq_iff_eq, not_and]
      intro h1 h2
      exact hnone ⟨s, hs, h1, h2⟩
    rw [addStorageToLocation]
    simp [hlocb, hprodb, hexb]

/-- C10 witness: with an existing row for (location 1, product 1) the
mutation returns the product-already-exists error and the unchanged
table. -/
theorem addStorageToLocation_guard_witness :
    addStorageToLocation [⟨1, "Kuljetusliike"⟩] [⟨1⟩] [⟨0, 1, 1, 3, 0⟩] 1 1 7 9 =
      (Except.error "Product already exists for this Location", [⟨0, 1, 1, 3, 0⟩]) :=
  (addStorageToLocation_guard [⟨1, "Kuljetusliike"⟩] [⟨1⟩] [⟨0, 1, 1, 3, 0⟩] 1 1 7 9
    (by decide) (by decide)).1 (by decide)

end PalletBackend
